import Mathlib

/-
Verification of the folder-upload relay (path normalization, upload
validation, fixed-window rate limiting, webhook forwarding, endpoint
response shapes) against its specification.

The TypeScript sources are embedded shallowly:
 - JavaScript strings are Lean `String`s; the regex-based replacements are
   implemented as recursive functions on `List Char` with the exact
   left-to-right, non-overlapping global-replace semantics of
   `String.prototype.replace` for the concrete patterns in the source.
 - `Date.now()` timestamps and byte sizes are `Nat` (they are non-negative
   integers in every reachable state of the program).
 - Floating-point display formatting (`formatBytes`, `toFixed`) and
   HTTP `statusText` never influence control flow; they are abstracted as
   `Nat → String` parameters where a message interpolates them.
 - Thrown exceptions are `Except` errors / explicit outcome values.
-/

/-! ## String helpers (JS regex replacements on `List Char`) -/

/-- JS `path.replace(/\\/g, '/')`. -/
def backslashToSlash (l : List Char) : List Char :=
  l.map (fun c => if c = '\\' then '/' else c)

/-- JS `replace(/^\/+/, '')` (also `/^\/*/`): drop every leading slash. -/
def dropLeadingSlashes (l : List Char) : List Char :=
  l.dropWhile (fun c => c = '/')

/-- One pass of JS `replace(/\/+/g, '/')` (equivalently `/\/{2,}/g` → `/`):
collapse each run of slashes to a single slash. The flag records whether the
previous kept character was a slash. -/
def collapseRuns (prevSlash : Bool) : List Char → List Char
  | [] => []
  | c :: rest =>
    if c = '/' then
      if prevSlash then collapseRuns true rest
      else '/' :: collapseRuns true rest
    else c :: collapseRuns false rest

/-- JS `replace(/\/+/g, '/')`. -/
def collapseSlashes (l : List Char) : List Char :=
  collapseRuns false l

/-- JS `replace(/\/+$/, '')`: drop trailing slashes. -/
def dropTrailingSlashes (l : List Char) : List Char :=
  (l.reverse.dropWhile (fun c => c = '/')).reverse

/-- JS `replace(/\.\./g, '')`: delete every (leftmost, non-overlapping)
occurrence of the two-character substring `..`. -/
def stripDotDotSubstr : List Char → List Char
  | '.' :: '.' :: rest => stripDotDotSubstr rest
  | c :: rest => c :: stripDotDotSubstr rest
  | [] => []

/-- Does the list contain the substring `..`? (JS `path.includes('..')`). -/
def hasDotDot : List Char → Bool
  | '.' :: '.' :: _ => true
  | _ :: rest => hasDotDot rest
  | [] => false

/-- Lookahead `(?=\/|$)`: the next character is a slash, or the end. -/
def sepOrEnd : List Char → Bool
  | [] => true
  | c :: _ => c = '/'

/-- Scanner for JS `replace(/(^|\/)\.\.(?=\/|$)/g, '')` at a non-start
position: a match must begin with a literal `/`. When the lookahead fails the
scanner advances past the inspected characters (no later match can begin
inside them, since a match can only begin at a `/`). -/
def stripDotDotSegGo : List Char → List Char
  | '/' :: '.' :: '.' :: rest =>
    if sepOrEnd rest then stripDotDotSegGo rest
    else '/' :: '.' :: '.' :: stripDotDotSegGo rest
  | c :: rest => c :: stripDotDotSegGo rest
  | [] => []

/-- JS `replace(/(^|\/)\.\.(?=\/|$)/g, '')`: remove `..` path segments
(the separator captured by `(^|\/)` is part of the match and is removed
with the segment). -/
def stripDotDotSeg (l : List Char) : List Char :=
  match l with
  | '.' :: '.' :: rest =>
    if sepOrEnd rest then stripDotDotSegGo rest
    else '.' :: '.' :: stripDotDotSegGo rest
  | _ => stripDotDotSegGo l

/-- Scanner for JS `replace(/(^|\/)\.(?=\/|$)/g, '')` at a non-start
position. -/
def stripDotSegGo : List Char → List Char
  | '/' :: '.' :: rest =>
    if sepOrEnd rest then stripDotSegGo rest
    else '/' :: '.' :: stripDotSegGo rest
  | c :: rest => c :: stripDotSegGo rest
  | [] => []

/-- JS `replace(/(^|\/)\.(?=\/|$)/g, '')`: remove `.` path segments. -/
def stripDotSeg (l : List Char) : List Char :=
  match l with
  | '.' :: rest =>
    if sepOrEnd rest then stripDotSegGo rest
    else '.' :: stripDotSegGo rest
  | _ => stripDotSegGo l

/-- Whitespace removed by JS `String.prototype.trim` (ASCII part; the paths
handled here contain no exotic Unicode spaces). -/
def isJsWhitespace (c : Char) : Bool :=
  c = ' ' || c = '\t' || c = '\n' || c = '\r' || c.toNat = 11 || c.toNat = 12

/-- JS `.trim()`. -/
def jsTrim (l : List Char) : List Char :=
  ((l.dropWhile isJsWhitespace).reverse.dropWhile isJsWhitespace).reverse

/-- JS `String.prototype.split('.')`. -/
def splitOnDot : List Char → List (List Char)
  | [] => [[]]
  | c :: rest =>
    let r := splitOnDot rest
    if c = '.' then [] :: r
    else
      match r with
      | h :: t => (c :: h) :: t
      | [] => [[c]]

/-- Does `pat` occur at the head of `l`? -/
def listIsPrefixOf : List Char → List Char → Bool
  | [], _ => true
  | _ :: _, [] => false
  | p :: ps, c :: cs => p = c && listIsPrefixOf ps cs

/-- Does `pat` occur anywhere in `l`? (JS `String.prototype.includes`). -/
def listContainsSub (pat : List Char) : List Char → Bool
  | [] => pat.isEmpty
  | c :: cs => listIsPrefixOf pat (c :: cs) || listContainsSub pat cs

/-- JS `s.includes(pat)`. -/
def containsSubstr (pat s : String) : Bool :=
  listContainsSub pat.data s.data

/-! ## Path normalizers and sanitizers

Three distinct implementations coexist in the repository. -/

/-- `normalizeRelPath` from `src/lib/folder-upload/validation.ts`
(lines 242-249), the normalizer used by
`src/app/api/folder-upload/route.ts`:

```
return p.replace(/\\/g, '/')
        .replace(/^\/*/, '')
        .replace(/\/{2,}/g, '/')
        .replace(/(^|\/)\.\.(?=\/|$)/g, '')
        .replace(/(^|\/)\.(?=\/|$)/g, '')
        .trim();
```
-/
def normalizeRelPath (p : String) : String :=
  (jsTrim (stripDotSeg (stripDotDotSeg (collapseRuns false
    (dropLeadingSlashes (backslashToSlash p.data)))))).asString

namespace Validation

/-- `sanitizePath` from `src/lib/folder-upload/validation.ts` (lines 37-43),
used by the `src/unnamed/part_009` upload endpoint:

```
return path
  .replace(/\.\./g, '')
  .replace(/^\/+/, '')
  .replace(/\/+/g, '/')
  .replace(/[<>:"|?*\x00-\x1f]/g, '');
```
-/
def sanitizePath (path : String) : String :=
  ((collapseRuns false (dropLeadingSlashes
      (stripDotDotSubstr path.data))).filter
    (fun c => !(c = '<' || c = '>' || c = ':' || c = '"' || c = '|' ||
                c = '?' || c = '*' || c.toNat ≤ 31))).asString

end Validation

namespace Security

/-- The allow-set of `src/lib/security.ts` line 97:
`/^[a-zA-Z0-9\-_./ ]+$/`. -/
def isAllowedPathChar (c : Char) : Bool :=
  (('a' ≤ c && c ≤ 'z') || ('A' ≤ c && c ≤ 'Z') || ('0' ≤ c && c ≤ '9') ||
   c = '-' || c = '_' || c = '.' || c = '/' || c = ' ')

/-- `sanitizePath` from `src/lib/security.ts` (lines 67-102).  This variant
throws (modelled as `Except.error`) instead of silently rewriting. -/
def sanitizePath (path : String) : Except String String :=
  if path = "" then .error "Invalid path: empty path"
  else
    let p1 := dropLeadingSlashes path.data
    if hasDotDot p1 then
      .error "Invalid path: parent directory traversal not allowed"
    else
      let p2 := collapseRuns false p1
      let p3 := dropTrailingSlashes p2
      if (match p3 with | '/' :: _ => true | _ => false) then
        .error "Invalid path: absolute paths not allowed"
      else if p3.any (fun c => c.toNat = 0) then
        .error "Invalid path: null bytes not allowed"
      else if p3.isEmpty || !(p3.all isAllowedPathChar) then
        .error "Invalid path: contains invalid characters"
      else .ok p3.asString

end Security

/-! ## Rate limiter

`src/lib/folder-upload/rate-limit.ts` keeps a `Map` from client IP to
`{count, resetAt}`; we embed the map as an association list and the check as
a pure state transformer.  `Date.now()` is the `now` argument.  On the deny
branch the source computes `Math.ceil((record.resetAt - now) / 1000)`; that
branch is only reached when `now ≤ record.resetAt`, where the JS expression
equals the natural-number ceiling division `(resetAt - now + 999) / 1000`. -/

namespace RateLimit

structure RateLimitRecord where
  count : Nat
  resetAt : Nat
deriving DecidableEq, Repr

abbrev Store := List (String × RateLimitRecord)

/-- `Map.set` on the association list (insert or overwrite one key). -/
def setKey : Store → String → RateLimitRecord → Store
  | [], k, v => [(k, v)]
  | (k0, v0) :: rest, k, v =>
    if k0 = k then (k, v) :: rest else (k0, v0) :: setKey rest k v

structure RateLimitConfig where
  enabled : Bool
  windowMs : Nat
  maxRequests : Nat
deriving Repr

inductive RLOutcome where
  | allowed
  | denied (retryAfterSeconds : Nat)
deriving DecidableEq, Repr

/-- `checkRateLimit` from `src/lib/folder-upload/rate-limit.ts`
(lines 23-48).  The thrown `RateLimitError(retryAfter)` is the `denied`
outcome; throwing before any mutation leaves the store untouched. -/
def checkRateLimit (cfg : RateLimitConfig) (now : Nat) (store : Store)
    (ip : String) : Store × RLOutcome :=
  if !cfg.enabled then (store, .allowed)
  else
    match List.lookup ip store with
    | none => (setKey store ip ⟨1, now + cfg.windowMs⟩, .allowed)
    | some record =>
      if now > record.resetAt then
        (setKey store ip ⟨1, now + cfg.windowMs⟩, .allowed)
      else if record.count ≥ cfg.maxRequests then
        (store, .denied ((record.resetAt - now + 999) / 1000))
      else (setKey store ip ⟨record.count + 1, record.resetAt⟩, .allowed)

end RateLimit

namespace Security

/-- `checkRateLimit` from `src/lib/security.ts` (lines 21-42); same fixed
window, but it reports the decision as a `Bool` (no retry-after). -/
def checkRateLimit (maxReq windowMs now : Nat) (store : RateLimit.Store)
    (ip : String) : RateLimit.Store × Bool :=
  match List.lookup ip store with
  | none => (RateLimit.setKey store ip ⟨1, now + windowMs⟩, true)
  | some entry =>
    if now > entry.resetAt then
      (RateLimit.setKey store ip ⟨1, now + windowMs⟩, true)
    else if entry.count ≥ maxReq then (store, false)
    else (RateLimit.setKey store ip ⟨entry.count + 1, entry.resetAt⟩, true)

end Security

namespace FixedWindowSpec

/-- The fixed-window reference algorithm exactly as the claim states it:
"if the key has no record or now ≥ windowResetAt, store a fresh record with
count = 1 and windowResetAt = now + windowDuration and allow; otherwise if
count ≥ maxRequests deny with retryAfterSeconds = ceil((windowResetAt −
now) / 1000); otherwise increment count and allow."  Note the `≥` on the
expiry test. -/
def checkGe (windowMs maxRequests now : Nat) (store : RateLimit.Store)
    (key : String) : RateLimit.Store × RateLimit.RLOutcome :=
  match List.lookup key store with
  | none => (RateLimit.setKey store key ⟨1, now + windowMs⟩, .allowed)
  | some record =>
    if now ≥ record.resetAt then
      (RateLimit.setKey store key ⟨1, now + windowMs⟩, .allowed)
    else if record.count ≥ maxRequests then
      (store, .denied ((record.resetAt - now + 999) / 1000))
    else (RateLimit.setKey store key ⟨record.count + 1, record.resetAt⟩, .allowed)

/-- The amended reference algorithm: identical except that a record is
replaced only strictly after `windowResetAt` (`now > windowResetAt`),
matching the source's `now > record.resetAt`. -/
def checkGt (windowMs maxRequests now : Nat) (store : RateLimit.Store)
    (key : String) : RateLimit.Store × RateLimit.RLOutcome :=
  match List.lookup key store with
  | none => (RateLimit.setKey store key ⟨1, now + windowMs⟩, .allowed)
  | some record =>
    if now > record.resetAt then
      (RateLimit.setKey store key ⟨1, now + windowMs⟩, .allowed)
    else if record.count ≥ maxRequests then
      (store, .denied ((record.resetAt - now + 999) / 1000))
    else (RateLimit.setKey store key ⟨record.count + 1, record.resetAt⟩, .allowed)

end FixedWindowSpec

/-! ## Upload validator (`src/lib/folder-upload/validation.ts`)

Error and warning messages are modelled as constructors carrying exactly the
data the source interpolates into the string; `Validation.render` spells out
the source's message text.  `formatBytes` (floating-point display
formatting) is abstracted as a `Nat → String` parameter of `render`; it
never influences control flow. -/

namespace Validation

/-- JS `getFileExtension`: `filename.match(/\.([^.]+)$/)` returning
`'.' + group1.toLowerCase()` on a match and `''` otherwise. -/
def getFileExtension (filename : String) : String :=
  let parts := splitOnDot filename.data
  if 2 ≤ parts.length then
    let lastPart := parts.getLastD []
    if lastPart.isEmpty then ""
    else "." ++ (lastPart.map Char.toLower).asString
  else ""

structure UploadFile where
  relativePath : String
  size : Nat
  type : String
deriving DecidableEq, Repr

structure UploadConfig where
  maxFileSize : Nat
  maxTotalSize : Nat
  maxFileCount : Nat
  allowedExtensions : List String
  allowedMimeTypes : List String
deriving Repr

/-- One constructor per `errors.push` / `warnings.push` site of
`validateFile` / `validateUpload`. -/
inductive VMsg where
  | noFiles
  | tooMany (count maxCount : Nat)
  | totalSize (total maxTotal : Nat)
  | fileTooBig (path : String) (maxSize : Nat)
  | badExt (path ext : String)
  | badMime (path mime : String)
  | traversal (path : String)
  | dupFile (path : String)
deriving DecidableEq, Repr

/-- The exact message text of each push site (`fb` is `formatBytes`). -/
def render (fb : Nat → String) : VMsg → String
  | .noFiles => "No files selected"
  | .tooMany n maxc =>
      "Too many files (" ++ toString n ++ "). Maximum is " ++ toString maxc
  | .totalSize t m =>
      "Total size (" ++ fb t ++ ") exceeds limit (" ++ fb m ++ ")"
  | .fileTooBig p m =>
      "File \"" ++ p ++ "\" exceeds max size (" ++ fb m ++ ")"
  | .badExt p e => "File \"" ++ p ++ "\" has disallowed extension: " ++ e
  | .badMime p t => "File \"" ++ p ++ "\" has disallowed MIME type: " ++ t
  | .traversal p => "File \"" ++ p ++ "\" contains path traversal attempt"
  | .dupFile p => "Duplicate file: " ++ p

/-- `validateFile` (validation.ts lines 56-91): size, extension, MIME and
`..`-substring checks, in source order. -/
def validateFile (cfg : UploadConfig) (file : UploadFile) : List VMsg :=
  (if file.size > cfg.maxFileSize then
      [VMsg.fileTooBig file.relativePath cfg.maxFileSize] else [])
  ++ (if cfg.allowedExtensions.contains (getFileExtension file.relativePath)
      then []
      else [VMsg.badExt file.relativePath (getFileExtension file.relativePath)])
  ++ (if cfg.allowedMimeTypes.length > 0 &&
         !(cfg.allowedMimeTypes.contains file.type) then
      [VMsg.badMime file.relativePath file.type] else [])
  ++ (if hasDotDot file.relativePath.data then
      [VMsg.traversal file.relativePath] else [])

structure UploadValidationResult where
  valid : Bool
  errors : List VMsg
  warnings : List VMsg
  totalSize : Nat
  fileCount : Nat
deriving DecidableEq, Repr

/-- The duplicate-filename loop of `validateUpload` (lines 127-133): a
`Set` of already-seen paths, warning on every repeat. -/
def dupWarnAux (seen : List String) : List UploadFile → List VMsg
  | [] => []
  | f :: rest =>
    if seen.contains f.relativePath then
      VMsg.dupFile f.relativePath :: dupWarnAux (f.relativePath :: seen) rest
    else dupWarnAux (f.relativePath :: seen) rest

/-- `validateUpload` (validation.ts lines 96-142): all rules are evaluated
(no short-circuit), `valid` iff the error list is empty. -/
def validateUpload (cfg : UploadConfig) (files : List UploadFile) :
    UploadValidationResult :=
  let e0 := if files.length = 0 then [VMsg.noFiles] else []
  let e1 := if files.length > cfg.maxFileCount then
      [VMsg.tooMany files.length cfg.maxFileCount] else []
  let total := (files.map (fun f => f.size)).sum
  let e2 := if total > cfg.maxTotalSize then
      [VMsg.totalSize total cfg.maxTotalSize] else []
  let fileErrs := (files.map (validateFile cfg)).flatten
  let errs := e0 ++ e1 ++ e2 ++ fileErrs
  ⟨errs.isEmpty, errs, dupWarnAux [] files, total, files.length⟩

end Validation

/-! ## Client-side validator (`src/unnamed/part_003`) -/

namespace ClientValidation

def ALLOWED_EXTENSIONS : List String :=
  ["jpg", "jpeg", "png", "webp", "tif", "tiff",
   "cr2", "nef", "arw", "raf", "orf", "rw2"]

def MAX_FILE_SIZE : Nat := 500 * 1024 * 1024

def MAX_TOTAL_SIZE : Nat := 2 * 1024 * 1024 * 1024

def MAX_FILES : Nat := 20000

def INCLUDE_HIDDEN_FILES : Bool := false

structure ClientFile where
  name : String
  size : Nat
deriving DecidableEq, Repr

structure FileWithPath where
  file : ClientFile
  relativePath : String
deriving DecidableEq, Repr

/-- One constructor per push site of part_003's `validateFile` /
`validateFiles`. -/
inductive CMsg where
  | hiddenFile (path : String)
  | invalidType (path : String)
  | fileTooLarge (path : String)
  | emptyFile (path : String)
  | tooMany (count : Nat)
  | noValidFiles
  | totalTooLarge (total : Nat)
deriving DecidableEq, Repr

/-- The exact message text of each push site (`fb` is part_003's
`formatBytes`). -/
def renderC (fb : Nat → String) : CMsg → String
  | .hiddenFile p => "Hidden file excluded: " ++ p
  | .invalidType p =>
      "Invalid file type: " ++ p ++ ". Allowed: " ++
        String.intercalate ", " ALLOWED_EXTENSIONS
  | .fileTooLarge p => "File too large: " ++ p ++ ". Max " ++ fb MAX_FILE_SIZE
  | .emptyFile p => "Empty file: " ++ p
  | .tooMany n =>
      "Too many files: " ++ toString n ++ ". Maximum allowed: " ++
        toString MAX_FILES
  | .noValidFiles => "No valid files found"
  | .totalTooLarge t =>
      "Total size too large: " ++ fb t ++ ". Maximum: " ++ fb MAX_TOTAL_SIZE

/-- JS `filename.startsWith('.')`. -/
def isHiddenFile (filename : String) : Bool :=
  match filename.data with
  | '.' :: _ => true
  | _ => false

/-- JS `filename.split('.').pop()?.toLowerCase()` then the truthiness test
`ext ? ALLOWED_EXTENSIONS.includes(ext) : false`. -/
def isAllowedExtension (filename : String) : Bool :=
  let ext := ((splitOnDot filename.data).getLastD []).map Char.toLower
  if ext.isEmpty then false else ALLOWED_EXTENSIONS.contains ext.asString

structure ValidationResult where
  valid : Bool
  errors : List CMsg
  warnings : List CMsg
deriving DecidableEq, Repr

/-- part_003 `validateFile`: hidden-file, extension and size errors;
a 0-byte size yields a warning only. -/
def validateFile (file : ClientFile) (relativePath : String) :
    ValidationResult :=
  let errors :=
    (if !INCLUDE_HIDDEN_FILES && isHiddenFile file.name then
        [CMsg.hiddenFile relativePath] else [])
    ++ (if !isAllowedExtension file.name then
        [CMsg.invalidType relativePath] else [])
    ++ (if file.size > MAX_FILE_SIZE then
        [CMsg.fileTooLarge relativePath] else [])
  let warnings := if file.size = 0 then [CMsg.emptyFile relativePath] else []
  ⟨errors.isEmpty, errors, warnings⟩

/-- The per-file loop of part_003 `validateFiles`, accumulating
(errors, warnings) in file order. -/
def collectFileResults : List FileWithPath → List CMsg × List CMsg
  | [] => ([], [])
  | f :: rest =>
    let r := validateFile f.file f.relativePath
    let p := collectFileResults rest
    (r.errors ++ p.1, r.warnings ++ p.2)

/-- part_003 `validateFiles` (lines 89-123). -/
def validateFiles (files : List FileWithPath) : ValidationResult :=
  let e1 := if files.length > MAX_FILES then
      [CMsg.tooMany files.length] else []
  let e2 := if files.length = 0 then [CMsg.noValidFiles] else []
  let total := (files.map (fun f => f.file.size)).sum
  let e3 := if total > MAX_TOTAL_SIZE then [CMsg.totalTooLarge total] else []
  let p := collectFileResults files
  let errs := e1 ++ e2 ++ e3 ++ p.1
  ⟨errs.isEmpty, errs, p.2⟩

end ClientValidation

/-- Concrete configuration and batches for the C7 witness: limit 10 total
bytes; one batch one byte over, one exactly at the limit. -/
def C7cfg : Validation.UploadConfig := ⟨100, 10, 5, [".jpg"], []⟩

def C7over : List Validation.UploadFile := [⟨"a.jpg", 11, "text"⟩]

def C7exact : List Validation.UploadFile := [⟨"a.jpg", 10, "text"⟩]

/-- Configuration and batch for the C9 counterexample: a single 0-byte file
that passes every other rule of the server-side validator. -/
def C9cfg : Validation.UploadConfig := ⟨100, 100, 10, [".jpg"], ["image/jpeg"]⟩

def C9zero : Validation.UploadFile := ⟨"a.jpg", 0, "image/jpeg"⟩

/-- Duplicate batch used by the C9 witness. -/
def C9dupFiles : List Validation.UploadFile :=
  [⟨"d.jpg", 1, "text"⟩, ⟨"d.jpg", 1, "text"⟩]

/-! ## Upload-endpoint rate-limited responses (claim C8)

Two upload endpoints coexist: `src/app/api/folder-upload/route.ts` and the
endpoint in `src/unnamed/part_009`.  We embed the HTTP response each one
builds when the rate limiter denies the request.  Only the headers the
handler sets explicitly are listed (for part_009, `NextResponse.json`
additionally adds its own JSON content-type). -/

structure HttpResponse where
  status : Nat
  headers : List (String × String)
  body : String
deriving DecidableEq, Repr

namespace Route

/-- `JSON_HEADERS` of route.ts line 9. -/
def JSON_HEADERS : List (String × String) :=
  [("content-type", "application/json; charset=utf-8")]

/-- The rate-limited response of route.ts lines 14-16:
`new Response(JSON.stringify({ok:false, message:'Too many requests'}),
{status: 429, headers: JSON_HEADERS})`. -/
def rateLimitedResponse : HttpResponse :=
  ⟨429, JSON_HEADERS,
   "\x7b\"ok\":false,\"message\":\"Too many requests\"\x7d"⟩

end Route

namespace UploadApi

/-- The rate-limited response of part_009 lines 38-57, built from the
caught `RateLimitError`'s `retryAfter`, `getRateLimitInfo`'s `limit` and
`remaining`, and the ISO rendering of `resetAt` (time formatting abstracted
as the `resetAtIso` argument). -/
def rateLimitedResponse (retryAfter limit remaining : Nat)
    (resetAtIso : String) : HttpResponse :=
  ⟨429,
   [("Retry-After", toString retryAfter),
    ("X-RateLimit-Limit", toString limit),
    ("X-RateLimit-Remaining", "0"),
    ("X-RateLimit-Reset", resetAtIso)],
   "\x7b\"ok\":false,\"error\":\"RATE_LIMIT_EXCEEDED\"," ++
     "\"message\":\"Too many uploads. Please try again later.\"," ++
     "\"details\":\x7b\"retryAfter\":" ++ toString retryAfter ++
     ",\"remaining\":" ++ toString remaining ++ "\x7d\x7d"⟩

end UploadApi

/-! ## Webhook forwarders

Two forwarder implementations exist: `forwardToN8nMultipart`
(`src/lib/folder-upload/validation.ts` lines 268-318, duplicated as
`lib/folder-upload/n8n-forwarder.ts` at lines 346-404 with identical
control flow) and `forwardToN8n` (`src/unnamed/part_002`).

The downstream webhook is modelled as a trace `tr : Nat → AttemptOutcome`
giving, for each attempt index, either the HTTP response (status and body
text) or the thrown fetch error (its `name` and `message`; a timeout abort
is such an error).  `await backoff(...)` / `await delay(...)` calls are
recorded in a `delays` list (milliseconds); `attempts` counts issued
fetches. -/

namespace Forwarder

inductive AttemptOutcome where
  | response (status : Nat) (body : String)
  | netError (name msg : String)
deriving DecidableEq, Repr

/-- `Response.ok` of fetch: status in the range 200-299. -/
def isOkStatus (s : Nat) : Bool :=
  200 ≤ s && s < 300

/-- `ForwardResult` of validation.ts lines 261-266 (`retries` is the index
of the attempt that produced the result). -/
structure ForwardResult where
  status : Nat
  ok : Bool
  bodyText : String
  retries : Nat
deriving DecidableEq, Repr

/-- One forward call together with its observable effects. -/
structure MultipartRun where
  result : ForwardResult
  attempts : Nat
  delays : List Nat
deriving DecidableEq, Repr

/-- `backoff(i)` of validation.ts lines 323-326: 500 ms before attempt 1,
1500 ms before later attempts. -/
def backoffMs (i : Nat) : Nat :=
  if i = 0 then 500 else 1500

/-- The request headers `forwardToN8nMultipart` sends (validation.ts lines
278-285): the secret, client id, count and byte totals, plus the optional
batch id and meta hash.  `sha256` (from `node:crypto`) is abstracted as a
function argument; no `Content-Type` entry is ever added — the source
comment reads "do NOT set 'Content-Type' when sending FormData". -/
def requestHeaders (hookSecret clientId : String) (fileCount totalBytes : Nat)
    (batchId metaJson : Option String) (sha256 : String → String) :
    List (String × String) :=
  [("x-hook-secret", hookSecret),
   ("x-client-id", clientId),
   ("x-file-total-count", toString fileCount),
   ("x-file-total-bytes", toString totalBytes)]
  ++ (match batchId with
      | some b => [("x-batch-id", b)]
      | none => [])
  ++ (match metaJson with
      | some m => [("x-meta-sha256", sha256 m)]
      | none => [])

/-- The retry loop of `forwardToN8nMultipart` (lines 294-316): `attempt`
is the loop counter, `fuel` the remaining iterations (`retries + 1 -
attempt`), `last` the last observed result.  2xx returns immediately; 5xx
backs off and continues; any other response returns immediately; a fetch
error records status 0 and backs off (even on the final iteration, as in
the source). -/
def forwardGo (tr : Nat → AttemptOutcome) :
    Nat → Nat → ForwardResult → Nat → List Nat → MultipartRun
  | _, 0, last, attempts, delays => ⟨last, attempts, delays⟩
  | attempt, fuel + 1, _, attempts, delays =>
    match tr attempt with
    | .response s b =>
      let cur : ForwardResult := ⟨s, isOkStatus s, b, attempt⟩
      if isOkStatus s then ⟨cur, attempts + 1, delays⟩
      else if 500 ≤ s then
        forwardGo tr (attempt + 1) fuel cur (attempts + 1)
          (delays ++ [backoffMs attempt])
      else ⟨cur, attempts + 1, delays⟩
    | .netError _ msg =>
      forwardGo tr (attempt + 1) fuel ⟨0, false, msg, attempt⟩
        (attempts + 1) (delays ++ [backoffMs attempt])

/-- `forwardToN8nMultipart` with `retries` = `n8n.retries ?? 2`: the loop
`for (attempt = 0; attempt <= retries; attempt++)` makes at most
`retries + 1` iterations; `last` starts as
`{status: 0, ok: false, bodyText: '', retries: 0}`. -/
def forwardToN8nMultipart (retries : Nat) (tr : Nat → AttemptOutcome) :
    MultipartRun :=
  forwardGo tr 0 (retries + 1) ⟨0, false, "", 0⟩ 0 []

end Forwarder

namespace N8n

/-- The `N8nError(message, status, retries)` of part_000 / part_002. -/
structure N8nError where
  msg : String
  status : Nat
  retries : Nat
deriving DecidableEq, Repr

/-- The success payload of part_002's `forwardToN8n` (`data` from
`response.json()` is irrelevant to the claims and omitted). -/
structure N8nSuccess where
  status : Nat
  retries : Nat
deriving DecidableEq, Repr

/-- A JS `Error` as `shouldRetry` inspects it: its `name` and `message`. -/
structure JsError where
  name : String
  msg : String
deriving DecidableEq, Repr

/-- One `forwardToN8n` call together with its observable effects. -/
structure N8nRun where
  result : Except N8nError N8nSuccess
  attempts : Nat
  delays : List Nat
deriving Repr

/-- `shouldRetry` of part_002 lines 11-23: retry on 5xx, or on an error
whose name is `FetchError` or whose message contains `ECONNRESET`. -/
def shouldRetry (status : Nat) (error : Option JsError) : Bool :=
  if 500 ≤ status && status < 600 then true
  else
    match error with
    | some e => e.name = "FetchError" || containsSubstr "ECONNRESET" e.msg
    | none => false

/-- The message of the `N8nError` thrown on a non-retryable response
(part_002 lines 106-110): statusText rendering is abstracted as `stx`. -/
def rejectMsg (stx : Nat → String) (s : Nat) (b : String) : String :=
  "n8n rejected upload: " ++ stx s ++ ". " ++ b

/-- `lastError` message for a retryable 5xx (part_002 line 116). -/
def httpFailMsg (stx : Nat → String) (s : Nat) : String :=
  "HTTP " ++ toString s ++ ": " ++ stx s

/-- The headers part_002's `forwardToN8n` sends (lines 47-56).  Unlike the
multipart forwarder, the object literal ends with
`'content-type': 'multipart/form-data'` — a manually set Content-Type
without a boundary. -/
def requestHeaders (hookSecret clientId : String) (fileCount totalBytes : Nat)
    (batchId metaHash : String) : List (String × String) :=
  [("x-hook-secret", hookSecret),
   ("x-client-id", clientId),
   ("x-file-total-count", toString fileCount),
   ("x-file-total-bytes", toString totalBytes),
   ("x-batch-id", batchId),
   ("x-meta-sha256", metaHash),
   ("content-type", "multipart/form-data")]

/-- `await delay(backoffMs)` before a retry (part_002 lines 139-143): only
taken while `attempt < retryAttempts`, with
`backoffMs = retryBackoff[min(attempt, retryBackoff.length - 1)]`. -/
def pauseIf (table : List Nat) (retryAttempts attempt : Nat) : List Nat :=
  if attempt < retryAttempts then
    [table.getD (min attempt (table.length - 1)) 0]
  else []

/-- The retry loop of part_002's `forwardToN8n` (lines 63-146).  A 2xx
returns.  A non-retryable response status makes the code `throw` an
`N8nError` *inside the `try`*; its own `catch` then re-examines it with
`shouldRetry(0, error)` — so if the rejection message (which embeds the
response body) contains `ECONNRESET`, the 4xx is retried; otherwise the
error is re-thrown wrapped as `n8n request failed: ...` with status 0.
A retryable outcome updates `lastStatus`/`lastError` and, while
`attempt < retryAttempts`, sleeps the table delay.  Exhausting the loop
throws the `n8n webhook failed after N attempts` error. -/
def forwardN8nGo (stx : Nat → String) (table : List Nat)
    (retryAttempts : Nat) (tr : Nat → Forwarder.AttemptOutcome) :
    Nat → Nat → Nat → Option String → Nat → List Nat → N8nRun
  | _, 0, lastStatus, lastErr, attempts, delays =>
    ⟨.error ⟨"n8n webhook failed after " ++ toString (retryAttempts + 1) ++
        " attempts: " ++ lastErr.getD "Unknown error",
      lastStatus, retryAttempts⟩, attempts, delays⟩
  | attempt, fuel + 1, _, _, attempts, delays =>
    match tr attempt with
    | .response s b =>
      if Forwarder.isOkStatus s then
        ⟨.ok ⟨s, attempt⟩, attempts + 1, delays⟩
      else if shouldRetry s none then
        forwardN8nGo stx table retryAttempts tr (attempt + 1) fuel s
          (some (httpFailMsg stx s)) (attempts + 1)
          (delays ++ pauseIf table retryAttempts attempt)
      else if shouldRetry 0 (some ⟨"N8nError", rejectMsg stx s b⟩) then
        forwardN8nGo stx table retryAttempts tr (attempt + 1) fuel 0
          (some (rejectMsg stx s b)) (attempts + 1)
          (delays ++ pauseIf table retryAttempts attempt)
      else
        ⟨.error ⟨"n8n request failed: " ++ rejectMsg stx s b, 0, attempt⟩,
          attempts + 1, delays⟩
    | .netError n m =>
      if shouldRetry 0 (some ⟨n, m⟩) then
        forwardN8nGo stx table retryAttempts tr (attempt + 1) fuel 0
          (some m) (attempts + 1)
          (delays ++ pauseIf table retryAttempts attempt)
      else
        ⟨.error ⟨"n8n request failed: " ++ m, 0, attempt⟩,
          attempts + 1, delays⟩

/-- part_002 `forwardToN8n` with configuration `retryAttempts` (default 2)
and backoff table `retryBackoff` (default `[500, 1500]`). -/
def forwardToN8n (stx : Nat → String) (table : List Nat)
    (retryAttempts : Nat) (tr : Nat → Forwarder.AttemptOutcome) : N8nRun :=
  forwardN8nGo stx table retryAttempts tr 0 (retryAttempts + 1) 0 none 0 []

end N8n

/-- The outcomes on which the multipart forwarder's loop continues to the
next attempt (source: `res.status >= 500` → backoff+continue, and the
`catch` branch → backoff+continue). -/
def retryableMultipart : Forwarder.AttemptOutcome → Bool
  | .response s _ => 500 ≤ s
  | .netError _ _ => true

/-- Outcomes on which part_002's loop continues: a 5xx response, or a fetch
error that `shouldRetry` accepts (`FetchError` name or `ECONNRESET` in the
message). -/
def retryableN8n : Forwarder.AttemptOutcome → Bool
  | .response s _ => 500 ≤ s && s < 600
  | .netError n m => n = "FetchError" || containsSubstr "ECONNRESET" m

/-- Downstream trace for the C5 scenario: 500 on the first call, 200 with
body `ok` afterwards. -/
def C5tr : Nat → Forwarder.AttemptOutcome := fun n =>
  if n = 0 then .response 500 "server error" else .response 200 "ok"

/-- Downstream trace: always 400 with a body containing `ECONNRESET`. -/
def C4trEconn : Nat → Forwarder.AttemptOutcome :=
  fun _ => .response 400 "read ECONNRESET"

/-- statusText rendering used in the concrete C4 runs. -/
def C4stx : Nat → String := fun _ => "Bad Request"

/-- Downstream trace: always 400 with an ordinary body. -/
def C4tr400 : Nat → Forwarder.AttemptOutcome :=
  fun _ => .response 400 "Invalid payload"

/-! ## Claim theorems, counterexamples and witnesses -/

/-! ## Claims C1 and C6: traversal handling of the normalizers -/

/-- C1: the claim says that for every path containing a `..` segment the
normalization used by the upload endpoint fails with an InvalidPathError and
never returns a modified string.  In fact both normalizers the endpoints use
have no failure mode at all: `normalizeRelPath` (route.ts) silently deletes
the `..` segments — `normalizeRelPath "a/../b.jpg" = "a/b.jpg"`, and
`normalizeRelPath "../x.jpg" = "/x.jpg"` (the leading-slash strip runs
before segment removal, so a leading slash even reappears) — and
`Validation.sanitizePath` (the part_009 endpoint) likewise returns a
modified string.  Only `Security.sanitizePath`, which neither endpoint
calls, raises on traversal. -/
theorem normalizeRelPath_silently_strips_traversal :
    normalizeRelPath "a/../b.jpg" = "a/b.jpg" ∧
    normalizeRelPath "../x.jpg" = "/x.jpg" ∧
    Validation.sanitizePath "a/../b.jpg" = "a/b.jpg" ∧
    Validation.sanitizePath "../x.jpg" = "x.jpg" ∧
    Security.sanitizePath "../x.jpg" =
      .error "Invalid path: parent directory traversal not allowed" := by
  refine ⟨?_, ?_, ?_, ?_, ?_⟩ <;> rfl

/-- C6: the claim says the sanitization is segment-aware, so a filename such
as `a..b.jpg` (where `..` occurs only inside a segment) is preserved
unchanged, neither corrupted nor rejected.  Only `normalizeRelPath`
satisfies this.  `Validation.sanitizePath` strips the raw substring,
corrupting the name to `ab.jpg`, and `Security.sanitizePath` rejects the
path outright. -/
theorem sanitizePath_corrupts_interior_dotdot :
    normalizeRelPath "a..b.jpg" = "a..b.jpg" ∧
    Validation.sanitizePath "a..b.jpg" = "ab.jpg" ∧
    Security.sanitizePath "a..b.jpg" =
      .error "Invalid path: parent directory traversal not allowed" := by
  refine ⟨?_, ?_, ?_⟩ <;> rfl

/-! ## Claims C3 and C10: the rate-limit check -/

/-- C3 counterexample: at `now = windowResetAt` exactly (record
`{count = 3, resetAt = 100}`, `maxRequests = 3`, checked at `now = 100`),
the claimed algorithm (`now ≥ windowResetAt` starts a fresh window) allows
with the counter reset to 1, but the code (`now > record.resetAt`) still
treats the window as live and denies, with `retryAfterSeconds = 0`. -/
theorem checkRateLimit_boundary_counterexample :
    RateLimit.checkRateLimit ⟨true, 1000, 3⟩ 100 [("ip", ⟨3, 100⟩)] "ip"
      = ([("ip", ⟨3, 100⟩)], .denied 0) ∧
    FixedWindowSpec.checkGe 1000 3 100 [("ip", ⟨3, 100⟩)] "ip"
      = ([("ip", ⟨1, 1100⟩)], .allowed) := by
  exact ⟨rfl, rfl⟩

/-- C3 (amended): with rate limiting enabled, `checkRateLimit` implements
the fixed-window reference algorithm with a *strict* expiry test (a fresh
window starts only when `now > windowResetAt`); and the concrete scenario
with `maxRequests = 3`, `windowMs = 1000`: three consecutive checks are
allowed (counts 1, 2, 3), a fourth within the window is denied with
`retryAfterSeconds = 1 > 0`, and a check strictly after `windowResetAt`
is allowed with the counter reset to 1. -/
theorem checkRateLimit_fixed_window_amended :
    (∀ (w m now : Nat) (store : RateLimit.Store) (ip : String),
      RateLimit.checkRateLimit ⟨true, w, m⟩ now store ip
        = FixedWindowSpec.checkGt w m now store ip) ∧
    RateLimit.checkRateLimit ⟨true, 1000, 3⟩ 0 [] "k"
      = ([("k", ⟨1, 1000⟩)], .allowed) ∧
    RateLimit.checkRateLimit ⟨true, 1000, 3⟩ 200 [("k", ⟨1, 1000⟩)] "k"
      = ([("k", ⟨2, 1000⟩)], .allowed) ∧
    RateLimit.checkRateLimit ⟨true, 1000, 3⟩ 300 [("k", ⟨2, 1000⟩)] "k"
      = ([("k", ⟨3, 1000⟩)], .allowed) ∧
    RateLimit.checkRateLimit ⟨true, 1000, 3⟩ 400 [("k", ⟨3, 1000⟩)] "k"
      = ([("k", ⟨3, 1000⟩)], .denied 1) ∧
    RateLimit.checkRateLimit ⟨true, 1000, 3⟩ 1001 [("k", ⟨3, 1000⟩)] "k"
      = ([("k", ⟨1, 2001⟩)], .allowed) := by
  refine ⟨fun w m now store ip => rfl, rfl, rfl, rfl, rfl, rfl⟩

/-- C10: whenever a check is denied (the window is live and the count has
reached the limit), the store is returned completely unchanged, in both
rate-limiter implementations: the denied request consumes no quota and does
not move `windowResetAt`. -/
theorem denied_check_leaves_store_unchanged :
    (∀ (cfg : RateLimit.RateLimitConfig) (now : Nat)
       (store : RateLimit.Store) (ip : String)
       (store2 : RateLimit.Store) (ra : Nat),
      RateLimit.checkRateLimit cfg now store ip = (store2, .denied ra) →
      store2 = store) ∧
    (∀ (maxReq windowMs now : Nat) (store : RateLimit.Store) (ip : String)
       (store2 : RateLimit.Store),
      Security.checkRateLimit maxReq windowMs now store ip = (store2, false) →
      store2 = store) := by
  constructor
  · intro cfg now store ip store2 ra h
    unfold RateLimit.checkRateLimit at h
    split at h
    · simp_all
    · split at h
      · simp_all
      · split at h
        · simp_all
        · split at h
          · exact (Prod.mk.injEq .. ▸ h).1.symm
          · simp_all
  · intro maxReq windowMs now store ip store2 h
    unfold Security.checkRateLimit at h
    split at h
    · simp_all
    · split at h
      · simp_all
      · split at h
        · exact (Prod.mk.injEq .. ▸ h).1.symm
        · simp_all

/-- C10 witness: a concrete denied check (limit 3 already used, window
still open) returns the very same one-record store. -/
theorem denied_check_leaves_store_unchanged_witness :
    (RateLimit.checkRateLimit ⟨true, 1000, 3⟩ 0
        [("ip", ⟨3, 500⟩)] "ip").1 = [("ip", ⟨3, 500⟩)] ∧
    (Security.checkRateLimit 3 1000 0 [("ip", ⟨3, 500⟩)] "ip").1
      = [("ip", ⟨3, 500⟩)] := by
  constructor
  · exact denied_check_leaves_store_unchanged.1 ⟨true, 1000, 3⟩ 0
      [("ip", ⟨3, 500⟩)] "ip" _ 1 (by decide)
  · exact denied_check_leaves_store_unchanged.2 3 1000 0
      [("ip", ⟨3, 500⟩)] "ip" _ (by decide)

/-! ## Claims C7 and C9: validator behaviour -/

/-- Per-file validation never produces the total-size error (that push site
exists only in `validateUpload` itself). -/
theorem validateFile_no_totalSize (cfg : Validation.UploadConfig)
    (f : Validation.UploadFile) (t m : Nat) :
    Validation.VMsg.totalSize t m ∉ Validation.validateFile cfg f := by
  intro h
  simp only [Validation.validateFile, List.mem_append] at h
  rcases h with ((h | h) | h) | h <;> (split at h <;> simp_all)

/-- If every element maps to `[]`, the flattened map is `[]`. -/
theorem flatten_map_nil {α β : Type} (g : α → List β) :
    ∀ (l : List α), (∀ x ∈ l, g x = []) → (l.map g).flatten = [] := by
  intro l h
  induction l with
  | nil => rfl
  | cons a t ih =>
    have ha := h a (List.mem_cons_self a t)
    have ht := ih (fun x hx => h x (List.mem_cons_of_mem _ hx))
    simp [ha, ht]

/-- C7: a batch whose summed sizes exceed `maxTotalBytes` (by at least one
byte) is invalid and its error list contains the error naming the total
size; at exactly `maxTotalBytes` the total-size rule produces no error, and
if no other rule is violated the batch is valid. -/
theorem validateUpload_total_size_boundary :
    ∀ (cfg : Validation.UploadConfig) (files : List Validation.UploadFile),
      ((files.map (fun f => f.size)).sum > cfg.maxTotalSize →
        (Validation.validateUpload cfg files).valid = false ∧
        Validation.VMsg.totalSize (files.map (fun f => f.size)).sum
            cfg.maxTotalSize
          ∈ (Validation.validateUpload cfg files).errors) ∧
      ((files.map (fun f => f.size)).sum = cfg.maxTotalSize →
        (∀ t m, Validation.VMsg.totalSize t m
            ∉ (Validation.validateUpload cfg files).errors) ∧
        (files ≠ [] → files.length ≤ cfg.maxFileCount →
          (∀ f ∈ files, Validation.validateFile cfg f = []) →
          (Validation.validateUpload cfg files).valid = true)) := by
  intro cfg files
  constructor
  · intro hgt
    have hmem : Validation.VMsg.totalSize (files.map (fun f => f.size)).sum
        cfg.maxTotalSize ∈ (Validation.validateUpload cfg files).errors := by
      simp only [Validation.validateUpload, List.mem_append]
      refine Or.inl (Or.inr ?_)
      rw [if_pos hgt]
      exact List.mem_singleton.mpr rfl
    refine ⟨?_, hmem⟩
    have hv : (Validation.validateUpload cfg files).valid
        = (Validation.validateUpload cfg files).errors.isEmpty := rfl
    rw [hv]
    cases herr : (Validation.validateUpload cfg files).errors with
    | nil => exact absurd (herr ▸ hmem) (List.not_mem_nil _)
    | cons a l => rfl
  · intro heq
    have he2 : ¬ ((files.map (fun f => f.size)).sum > cfg.maxTotalSize) := by
      omega
    constructor
    · intro t m hmem
      simp only [Validation.validateUpload, List.mem_append] at hmem
      rcases hmem with ((h | h) | h) | h
      · split at h <;> simp_all
      · split at h <;> simp_all
      · rw [if_neg he2] at h
        exact List.not_mem_nil _ h
      · rcases List.mem_flatten.mp h with ⟨l, hl, hx⟩
        rcases List.mem_map.mp hl with ⟨f, _, rfl⟩
        exact validateFile_no_totalSize cfg f t m hx
    · intro hne hcount hall
      have h0 : ¬ (files.length = 0) := fun h =>
        hne (List.length_eq_zero.mp h)
      have h1 : ¬ (files.length > cfg.maxFileCount) := by omega
      have hfe : (files.map (Validation.validateFile cfg)).flatten = [] :=
        flatten_map_nil _ files hall
      have herr : (Validation.validateUpload cfg files).errors = [] := by
        simp only [Validation.validateUpload]
        rw [if_neg h0, if_neg h1, if_neg he2, hfe]
        rfl
      have hv : (Validation.validateUpload cfg files).valid
          = (Validation.validateUpload cfg files).errors.isEmpty := rfl
      rw [hv, herr]
      rfl

/-- C7 witness: with `maxTotalBytes = 10`, an 11-byte batch is invalid with
the total-size error present; a 10-byte batch has no total-size error and is
valid. -/
theorem validateUpload_total_size_boundary_witness :
    (Validation.validateUpload C7cfg C7over).valid = false ∧
    Validation.VMsg.totalSize 11 10
      ∈ (Validation.validateUpload C7cfg C7over).errors ∧
    Validation.VMsg.totalSize 10 10
      ∉ (Validation.validateUpload C7cfg C7exact).errors ∧
    (Validation.validateUpload C7cfg C7exact).valid = true := by
  have h1 := (validateUpload_total_size_boundary C7cfg C7over).1 (by decide)
  have h2 := (validateUpload_total_size_boundary C7cfg C7exact).2 (by decide)
  exact ⟨h1.1, h1.2, h2.1 10 10, h2.2 (by decide) (by decide) (by decide)⟩

/-- Every warning `dupWarnAux` emits is a duplicate-file warning. -/
theorem dupWarnAux_mem_dup (w : Validation.VMsg) :
    ∀ (seen : List String) (files : List Validation.UploadFile),
      w ∈ Validation.dupWarnAux seen files →
      ∃ p, w = Validation.VMsg.dupFile p := by
  intro seen files
  induction files generalizing seen with
  | nil => intro h; cases h
  | cons f rest ih =>
    intro h
    unfold Validation.dupWarnAux at h
    split at h
    · cases h with
      | head => exact ⟨f.relativePath, rfl⟩
      | tail _ h2 => exact ih _ h2
    · exact ih _ h

/-- A 0-byte file contributes its `Empty file` warning to the client-side
per-file accumulator. -/
theorem collect_warn_mem (x : ClientValidation.FileWithPath)
    (hsz : x.file.size = 0) :
    ∀ (files : List ClientValidation.FileWithPath), x ∈ files →
      ClientValidation.CMsg.emptyFile x.relativePath
        ∈ (ClientValidation.collectFileResults files).2 := by
  intro files
  induction files with
  | nil => intro h; cases h
  | cons f rest ih =>
    intro h
    have hshape : (ClientValidation.collectFileResults (f :: rest)).2
        = (ClientValidation.validateFile f.file f.relativePath).warnings
          ++ (ClientValidation.collectFileResults rest).2 := rfl
    rw [hshape]
    cases h with
    | head =>
      refine List.mem_append.mpr (Or.inl ?_)
      simp [ClientValidation.validateFile, hsz]
    | tail _ h2 => exact List.mem_append.mpr (Or.inr (ih h2))

/-- C9 counterexample: the server-side `validateUpload` on an otherwise
valid batch containing a 0-byte file returns `valid = true` with an *empty*
warnings list — no warning mentions the empty file, contradicting the
claimed non-empty warnings list. -/
theorem validateUpload_no_empty_file_warning :
    (Validation.validateUpload C9cfg [C9zero]).valid = true ∧
    (Validation.validateUpload C9cfg [C9zero]).warnings = [] :=
  ⟨rfl, rfl⟩

/-- C9 (amended): the server-side `validateUpload` produces no error for a
0-byte file but also no warning — its only warnings are duplicate-path
warnings; the `Empty file` warning (a warning, never an error) is produced
by the client-side `validateFiles` of part_003, where an otherwise valid
batch with a 0-byte file yields `valid = true` and a warnings list
mentioning the empty file. -/
theorem empty_file_warning_amended :
    (∀ (cfg : Validation.UploadConfig) (files : List Validation.UploadFile)
       (w : Validation.VMsg),
      w ∈ (Validation.validateUpload cfg files).warnings →
      ∃ p, w = Validation.VMsg.dupFile p) ∧
    (∀ (files : List ClientValidation.FileWithPath)
       (x : ClientValidation.FileWithPath), x ∈ files → x.file.size = 0 →
      ClientValidation.CMsg.emptyFile x.relativePath
        ∈ (ClientValidation.validateFiles files).warnings) ∧
    ((ClientValidation.validateFiles [⟨⟨"a.jpg", 0⟩, "a.jpg"⟩]).valid = true ∧
     (ClientValidation.validateFiles [⟨⟨"a.jpg", 0⟩, "a.jpg"⟩]).warnings
       = [ClientValidation.CMsg.emptyFile "a.jpg"]) := by
  refine ⟨?_, ?_, rfl, rfl⟩
  · intro cfg files w h
    exact dupWarnAux_mem_dup w [] files h
  · intro files x hx hsz
    have hw : (ClientValidation.validateFiles files).warnings
        = (ClientValidation.collectFileResults files).2 := rfl
    rw [hw]
    exact collect_warn_mem x hsz files hx

/-- C9 witness: both universally quantified parts applied at concrete
batches. -/
theorem empty_file_warning_witness :
    (∃ p, Validation.VMsg.dupFile "d.jpg" = Validation.VMsg.dupFile p) ∧
    ClientValidation.CMsg.emptyFile "b.png"
      ∈ (ClientValidation.validateFiles [⟨⟨"b.png", 0⟩, "b.png"⟩]).warnings := by
  constructor
  · exact empty_file_warning_amended.1 C9cfg C9dupFiles
      (Validation.VMsg.dupFile "d.jpg") (by decide)
  · exact empty_file_warning_amended.2.1 [⟨⟨"b.png", 0⟩, "b.png"⟩]
      ⟨⟨"b.png", 0⟩, "b.png"⟩ (by decide) rfl

/-- C8 counterexample: the rate-limited response that route.ts builds has
status 429 but carries only the JSON content-type header — no `Retry-After`
at all, contradicting the claim that every rate-limited response of the
upload endpoint includes one. -/
theorem route_429_lacks_retry_after :
    Route.rateLimitedResponse.status = 429 ∧
    Route.rateLimitedResponse.headers.all
      (fun kv => kv.1 != "Retry-After") = true := by
  exact ⟨rfl, rfl⟩

/-- C8 (amended): both endpoints answer a rate-limit denial with status
429; the part_009 endpoint includes a `Retry-After` header whose value is
the denial's `retryAfterSeconds` — which `checkRateLimit` computes as the
ceiling of the remaining window `(resetAt − now) / 1000` seconds — but the
route.ts endpoint sends only the JSON content-type header and no
`Retry-After`. -/
theorem rate_limited_responses_amended :
    Route.rateLimitedResponse.status = 429 ∧
    Route.rateLimitedResponse.headers
      = [("content-type", "application/json; charset=utf-8")] ∧
    (∀ (ra lim rem : Nat) (iso : String),
      (UploadApi.rateLimitedResponse ra lim rem iso).status = 429 ∧
      ("Retry-After", toString ra)
        ∈ (UploadApi.rateLimitedResponse ra lim rem iso).headers) ∧
    (∀ (cfg : RateLimit.RateLimitConfig) (now : Nat)
       (store : RateLimit.Store) (ip : String)
       (store2 : RateLimit.Store) (ra : Nat),
      RateLimit.checkRateLimit cfg now store ip = (store2, .denied ra) →
      ∃ r, List.lookup ip store = some r ∧ now ≤ r.resetAt ∧
        ra = (r.resetAt - now + 999) / 1000) := by
  refine ⟨rfl, rfl, ?_, ?_⟩
  · intro ra lim rem iso
    exact ⟨rfl, List.mem_cons_self _ _⟩
  · intro cfg now store ip store2 ra h
    unfold RateLimit.checkRateLimit at h
    split at h
    · simp_all
    · split at h
      next heq => simp_all
      next r heq =>
        split at h
        · simp_all
        · split at h
          next hcnt =>
            refine ⟨r, heq, by omega, ?_⟩
            have := (Prod.mk.injEq .. ▸ h).2
            exact (RateLimit.RLOutcome.denied.injEq .. ▸ this).symm
          next hcnt => simp_all

/-- C8 witness: the part_009 response at a concrete denial (record
`{count = 3, resetAt = 500}` checked at `now = 0` denies with
`retryAfterSeconds = 1`) carries `Retry-After: 1`. -/
theorem rate_limited_responses_witness :
    ("Retry-After", toString 1)
      ∈ (UploadApi.rateLimitedResponse 1 30 0 "t").headers ∧
    ∃ r, List.lookup "ip"
        ([("ip", RateLimit.RateLimitRecord.mk 3 500)] : RateLimit.Store)
        = some r ∧
      (0 : Nat) ≤ r.resetAt ∧ (1 : Nat) = (r.resetAt - 0 + 999) / 1000 := by
  constructor
  · exact (rate_limited_responses_amended.2.2.1 1 30 0 "t").2
  · exact rate_limited_responses_amended.2.2.2 ⟨true, 1000, 3⟩ 0
      [("ip", ⟨3, 500⟩)] "ip" [("ip", ⟨3, 500⟩)] 1 (by decide)

/-! ## Claims C2, C4, C5: the forwarders -/

/-- C2: part_002's `forwardToN8n` sends a manually set
`content-type: multipart/form-data` header (without a boundary) on every
call, while both `forwardToN8nMultipart` copies send no content-type entry
at all — contradicting the claim that *every* forwarder implementation
derives the content-type automatically. -/
theorem forwardToN8n_sets_content_type_manually :
    ("content-type", "multipart/form-data")
      ∈ N8n.requestHeaders "secret" "client" 1 5 "batch-1" "hash" ∧
    (Forwarder.requestHeaders "secret" "client" 1 5
        (some "batch-1") (some "meta") (fun _ => "hash")).all
      (fun kv => kv.1 != "content-type") = true ∧
    (Forwarder.requestHeaders "secret" "client" 1 5
        none none (fun _ => "hash")).all
      (fun kv => kv.1 != "content-type") = true := by
  refine ⟨by decide, rfl, rfl⟩

/-- The multipart loop makes at most `fuel` further fetches. -/
theorem forwardGo_attempts_le (tr : Nat → Forwarder.AttemptOutcome) :
    ∀ (fuel attempt : Nat) (last : Forwarder.ForwardResult)
      (attempts : Nat) (delays : List Nat),
      (Forwarder.forwardGo tr attempt fuel last attempts delays).attempts
        ≤ attempts + fuel := by
  intro fuel
  induction fuel with
  | zero =>
    intro attempt last attempts delays
    simp [Forwarder.forwardGo]
  | succ f ih =>
    intro attempt last attempts delays
    cases htr : tr attempt with
    | response s b =>
      simp only [Forwarder.forwardGo, htr]
      split
      · simp
      · split
        · have := ih (attempt + 1) ⟨s, Forwarder.isOkStatus s, b, attempt⟩
            (attempts + 1) (delays ++ [Forwarder.backoffMs attempt])
          omega
        · simp
    | netError n m =>
      simp only [Forwarder.forwardGo, htr]
      have := ih (attempt + 1) ⟨0, false, m, attempt⟩
        (attempts + 1) (delays ++ [Forwarder.backoffMs attempt])
      omega

/-- part_002's loop makes at most `fuel` further fetches. -/
theorem forwardN8nGo_attempts_le (stx : Nat → String) (table : List Nat)
    (retryAttempts : Nat) (tr : Nat → Forwarder.AttemptOutcome) :
    ∀ (fuel attempt lastStatus : Nat) (lastErr : Option String)
      (attempts : Nat) (delays : List Nat),
      (N8n.forwardN8nGo stx table retryAttempts tr attempt fuel lastStatus
        lastErr attempts delays).attempts ≤ attempts + fuel := by
  intro fuel
  induction fuel with
  | zero =>
    intro attempt lastStatus lastErr attempts delays
    simp [N8n.forwardN8nGo]
  | succ f ih =>
    intro attempt lastStatus lastErr attempts delays
    cases htr : tr attempt with
    | response s b =>
      simp only [N8n.forwardN8nGo, htr]
      split
      · simp
      · split
        · have := ih (attempt + 1) s (some (N8n.httpFailMsg stx s))
            (attempts + 1)
            (delays ++ N8n.pauseIf table retryAttempts attempt)
          omega
        · split
          · have := ih (attempt + 1) 0 (some (N8n.rejectMsg stx s b))
              (attempts + 1)
              (delays ++ N8n.pauseIf table retryAttempts attempt)
            omega
          · simp
    | netError n m =>
      simp only [N8n.forwardN8nGo, htr]
      split
      · have := ih (attempt + 1) 0 (some m) (attempts + 1)
          (delays ++ N8n.pauseIf table retryAttempts attempt)
        omega
      · simp

/-- C5: both forwarders issue at most `maxRetries + 1` attempts whatever
the downstream trace does, and always terminate with a result; on the
500-then-200 trace with `retries = 2` the multipart forwarder succeeds with
`retries` (the zero-indexed attempt counter) equal to 1, after exactly two
attempts and one 500 ms backoff. -/
theorem forward_attempts_bounded :
    (∀ (retries : Nat) (tr : Nat → Forwarder.AttemptOutcome),
      (Forwarder.forwardToN8nMultipart retries tr).attempts ≤ retries + 1) ∧
    (∀ (stx : Nat → String) (table : List Nat) (retryAttempts : Nat)
       (tr : Nat → Forwarder.AttemptOutcome),
      (N8n.forwardToN8n stx table retryAttempts tr).attempts
        ≤ retryAttempts + 1) ∧
    Forwarder.forwardToN8nMultipart 2 C5tr
      = ⟨⟨200, true, "ok", 1⟩, 2, [500]⟩ := by
  refine ⟨?_, ?_, rfl⟩
  · intro retries tr
    simpa using forwardGo_attempts_le tr (retries + 1) 0 ⟨0, false, "", 0⟩ 0 []
  · intro stx table retryAttempts tr
    simpa using forwardN8nGo_attempts_le stx table retryAttempts tr
      (retryAttempts + 1) 0 0 none 0 []

/-- If the first `k` attempts are retryable and attempt `k` (within the
loop bound) answers with a 4xx response, the multipart forwarder stops at
that attempt: it returns that response's result, having made exactly
`k + 1` fetches and one backoff per *earlier* attempt (none after the
4xx). -/
theorem forwardGo_hits_4xx (tr : Nat → Forwarder.AttemptOutcome) (s : Nat)
    (b : String) (h4a : 400 ≤ s) (h4b : s < 500) :
    ∀ (k attempt fuel : Nat) (last : Forwarder.ForwardResult) (acc : Nat)
      (ds : List Nat),
      k < fuel → tr (attempt + k) = .response s b →
      (∀ j, j < k → retryableMultipart (tr (attempt + j)) = true) →
      ∃ extra : List Nat,
        Forwarder.forwardGo tr attempt fuel last acc ds
          = ⟨⟨s, false, b, attempt + k⟩, acc + (k + 1), ds ++ extra⟩ ∧
        extra.length = k := by
  have hok : Forwarder.isOkStatus s = false := by
    unfold Forwarder.isOkStatus
    simp only [Bool.and_eq_false_iff, decide_eq_false_iff_not]
    omega
  intro k
  induction k with
  | zero =>
    intro attempt fuel last acc ds hfuel htr _
    cases fuel with
    | zero => omega
    | succ f =>
      rw [Nat.add_zero] at htr
      refine ⟨[], ?_, rfl⟩
      simp only [Forwarder.forwardGo, htr]
      rw [hok, if_neg Bool.false_ne_true, if_neg (by omega : ¬ 500 ≤ s)]
      simp
  | succ n ih =>
    intro attempt fuel last acc ds hfuel htr hretry
    cases fuel with
    | zero => omega
    | succ f =>
      have h0 := hretry 0 (Nat.succ_pos n)
      rw [Nat.add_zero] at h0
      have hidx : attempt + 1 + n = attempt + (n + 1) := by omega
      have htr2 : tr (attempt + 1 + n) = .response s b := by
        rw [hidx]; exact htr
      have hret2 : ∀ j, j < n →
          retryableMultipart (tr (attempt + 1 + j)) = true := by
        intro j hj
        have hj2 : attempt + 1 + j = attempt + (j + 1) := by omega
        rw [hj2]
        exact hretry (j + 1) (by omega)
      cases hcur : tr attempt with
      | response s2 b2 =>
        rw [hcur] at h0
        have h5 : 500 ≤ s2 := by simpa [retryableMultipart] using h0
        have hok2 : Forwarder.isOkStatus s2 = false := by
          unfold Forwarder.isOkStatus
          simp only [Bool.and_eq_false_iff, decide_eq_false_iff_not]
          omega
        obtain ⟨extra, heq, hlen⟩ := ih (attempt + 1) f
          ⟨s2, false, b2, attempt⟩ (acc + 1)
          (ds ++ [Forwarder.backoffMs attempt]) (by omega) htr2 hret2
        refine ⟨Forwarder.backoffMs attempt :: extra, ?_, by simp [hlen]⟩
        have hstep : Forwarder.forwardGo tr attempt (f + 1) last acc ds
            = Forwarder.forwardGo tr (attempt + 1) f ⟨s2, false, b2, attempt⟩
              (acc + 1) (ds ++ [Forwarder.backoffMs attempt]) := by
          simp only [Forwarder.forwardGo, hcur]
          rw [hok2, if_neg Bool.false_ne_true, if_pos h5]
        rw [hstep, heq, hidx]
        have e2 : acc + 1 + (n + 1) = acc + (n + 1 + 1) := by omega
        rw [e2, List.append_assoc]
        rfl
      | netError nm mm =>
        obtain ⟨extra, heq, hlen⟩ := ih (attempt + 1) f
          ⟨0, false, mm, attempt⟩ (acc + 1)
          (ds ++ [Forwarder.backoffMs attempt]) (by omega) htr2 hret2
        refine ⟨Forwarder.backoffMs attempt :: extra, ?_, by simp [hlen]⟩
        have hstep : Forwarder.forwardGo tr attempt (f + 1) last acc ds
            = Forwarder.forwardGo tr (attempt + 1) f ⟨0, false, mm, attempt⟩
              (acc + 1) (ds ++ [Forwarder.backoffMs attempt]) := by
          simp only [Forwarder.forwardGo, hcur]
        rw [hstep, heq, hidx]
        have e2 : acc + 1 + (n + 1) = acc + (n + 1 + 1) := by omega
        rw [e2, List.append_assoc]
        rfl

/-- If the first `k` attempts of part_002's forwarder are retryable and
attempt `k` (within the loop and retry bounds) answers with a 4xx whose
rejection message does not contain `ECONNRESET`, the call throws the
wrapped permanent-failure error at that attempt: exactly `k + 1` fetches,
one table delay per earlier attempt, none after the 4xx. -/
theorem forwardN8nGo_hits_4xx (stx : Nat → String) (table : List Nat)
    (retryAttempts : Nat) (tr : Nat → Forwarder.AttemptOutcome) (s : Nat)
    (b : String) (h4a : 400 ≤ s) (h4b : s < 500)
    (hnoe : containsSubstr "ECONNRESET" (N8n.rejectMsg stx s b) = false) :
    ∀ (k attempt fuel lastStatus : Nat) (lastErr : Option String)
      (acc : Nat) (ds : List Nat),
      k < fuel → attempt + k ≤ retryAttempts →
      tr (attempt + k) = .response s b →
      (∀ j, j < k → retryableN8n (tr (attempt + j)) = true) →
      ∃ extra : List Nat,
        N8n.forwardN8nGo stx table retryAttempts tr attempt fuel lastStatus
            lastErr acc ds
          = ⟨.error ⟨"n8n request failed: " ++ N8n.rejectMsg stx s b, 0,
              attempt + k⟩, acc + (k + 1), ds ++ extra⟩ ∧
        extra.length = k := by
  have hok : Forwarder.isOkStatus s = false := by
    unfold Forwarder.isOkStatus
    simp only [Bool.and_eq_false_iff, decide_eq_false_iff_not]
    omega
  have hsr1 : N8n.shouldRetry s none = false := by
    unfold N8n.shouldRetry
    have : (500 ≤ s && s < 600) = false := by
      simp only [Bool.and_eq_false_iff, decide_eq_false_iff_not]
      omega
    rw [this]
    simp
  have hsr2 : N8n.shouldRetry 0 (some ⟨"N8nError", N8n.rejectMsg stx s b⟩)
      = false := by
    unfold N8n.shouldRetry
    simp [hnoe]
  intro k
  induction k with
  | zero =>
    intro attempt fuel lastStatus lastErr acc ds hfuel _ htr _
    cases fuel with
    | zero => omega
    | succ f =>
      rw [Nat.add_zero] at htr
      refine ⟨[], ?_, rfl⟩
      simp only [N8n.forwardN8nGo, htr]
      rw [hok, if_neg Bool.false_ne_true, hsr1, if_neg Bool.false_ne_true,
        hsr2, if_neg Bool.false_ne_true]
      simp
  | succ n ih =>
    intro attempt fuel lastStatus lastErr acc ds hfuel hbound htr hretry
    cases fuel with
    | zero => omega
    | succ f =>
      have h0 := hretry 0 (Nat.succ_pos n)
      rw [Nat.add_zero] at h0
      have hlt : attempt < retryAttempts := by omega
      have hpause : N8n.pauseIf table retryAttempts attempt
          = [table.getD (min attempt (table.length - 1)) 0] := by
        unfold N8n.pauseIf
        rw [if_pos hlt]
      have hidx : attempt + 1 + n = attempt + (n + 1) := by omega
      have htr2 : tr (attempt + 1 + n) = .response s b := by
        rw [hidx]; exact htr
      have hret2 : ∀ j, j < n → retryableN8n (tr (attempt + 1 + j)) = true := by
        intro j hj
        have hj2 : attempt + 1 + j = attempt + (j + 1) := by omega
        rw [hj2]
        exact hretry (j + 1) (by omega)
      cases hcur : tr attempt with
      | response s2 b2 =>
        rw [hcur] at h0
        have h5 : 500 ≤ s2 ∧ s2 < 600 := by
          simpa [retryableN8n] using h0
        have hok2 : Forwarder.isOkStatus s2 = false := by
          unfold Forwarder.isOkStatus
          simp only [Bool.and_eq_false_iff, decide_eq_false_iff_not]
          omega
        have hsr : N8n.shouldRetry s2 none = true := by
          unfold N8n.shouldRetry
          have : (500 ≤ s2 && s2 < 600) = true := by
            simp only [Bool.and_eq_true, decide_eq_true_eq]
            omega
          rw [this]
          rfl
        obtain ⟨extra, heq, hlen⟩ := ih (attempt + 1) f s2
          (some (N8n.httpFailMsg stx s2)) (acc + 1)
          (ds ++ [table.getD (min attempt (table.length - 1)) 0])
          (by omega) (by omega) htr2 hret2
        refine ⟨table.getD (min attempt (table.length - 1)) 0 :: extra, ?_,
          by simp [hlen]⟩
        have hstep : N8n.forwardN8nGo stx table retryAttempts tr attempt
              (f + 1) lastStatus lastErr acc ds
            = N8n.forwardN8nGo stx table retryAttempts tr (attempt + 1) f s2
              (some (N8n.httpFailMsg stx s2)) (acc + 1)
              (ds ++ [table.getD (min attempt (table.length - 1)) 0]) := by
          simp only [N8n.forwardN8nGo, hcur]
          rw [hok2, if_neg Bool.false_ne_true, hsr, if_pos rfl, hpause]
        rw [hstep, heq, hidx]
        have e2 : acc + 1 + (n + 1) = acc + (n + 1 + 1) := by omega
        rw [e2, List.append_assoc]
        rfl
      | netError nm mm =>
        rw [hcur] at h0
        have hsr : N8n.shouldRetry 0 (some ⟨nm, mm⟩) = true := by
          unfold N8n.shouldRetry
          simp only [retryableN8n] at h0
          simpa using h0
        obtain ⟨extra, heq, hlen⟩ := ih (attempt + 1) f 0 (some mm) (acc + 1)
          (ds ++ [table.getD (min attempt (table.length - 1)) 0])
          (by omega) (by omega) htr2 hret2
        refine ⟨table.getD (min attempt (table.length - 1)) 0 :: extra, ?_,
          by simp [hlen]⟩
        have hstep : N8n.forwardN8nGo stx table retryAttempts tr attempt
              (f + 1) lastStatus lastErr acc ds
            = N8n.forwardN8nGo stx table retryAttempts tr (attempt + 1) f 0
              (some mm) (acc + 1)
              (ds ++ [table.getD (min attempt (table.length - 1)) 0]) := by
          simp only [N8n.forwardN8nGo, hcur]
          rw [hsr, if_pos rfl, hpause]
        rw [hstep, heq, hidx]
        have e2 : acc + 1 + (n + 1) = acc + (n + 1 + 1) := by omega
        rw [e2, List.append_assoc]
        rfl

/-- C4 counterexample: against a downstream that always answers 400 with a
body containing `ECONNRESET`, part_002's `forwardToN8n` (retryAttempts = 2,
backoff table [500, 1500]) performs *three* attempts with two backoff
delays, not one attempt: the thrown 4xx rejection is re-inspected by
`shouldRetry`, whose message test matches the body text. -/
theorem forwardToN8n_econnreset_body_retries_4xx :
    (N8n.forwardToN8n C4stx [500, 1500] 2 C4trEconn).attempts = 3 ∧
    (N8n.forwardToN8n C4stx [500, 1500] 2 C4trEconn).delays = [500, 1500] := by
  exact ⟨rfl, rfl⟩

/-- C4 (amended): whenever the current attempt `k` (reached because every
earlier attempt was retryable) receives a 4xx response, the multipart
forwarder always returns that result immediately — `k + 1` attempts, no
backoff after attempt `k`; part_002's `forwardToN8n` does the same
*provided* its rejection message (which embeds the response body) does not
contain `ECONNRESET`, raising the wrapped permanent-failure error. -/
theorem forward_4xx_no_retry_amended :
    ∀ (retries k : Nat) (tr : Nat → Forwarder.AttemptOutcome) (s : Nat)
      (b : String),
      k ≤ retries → 400 ≤ s → s < 500 → tr k = .response s b →
      ((∀ j, j < k → retryableMultipart (tr j) = true) →
        (Forwarder.forwardToN8nMultipart retries tr).result
          = ⟨s, false, b, k⟩ ∧
        (Forwarder.forwardToN8nMultipart retries tr).attempts = k + 1 ∧
        (Forwarder.forwardToN8nMultipart retries tr).delays.length = k) ∧
      (∀ (stx : Nat → String) (table : List Nat),
        (∀ j, j < k → retryableN8n (tr j) = true) →
        containsSubstr "ECONNRESET" (N8n.rejectMsg stx s b) = false →
        (N8n.forwardToN8n stx table retries tr).result
          = .error ⟨"n8n request failed: " ++ N8n.rejectMsg stx s b, 0, k⟩ ∧
        (N8n.forwardToN8n stx table retries tr).attempts = k + 1 ∧
        (N8n.forwardToN8n stx table retries tr).delays.length = k) := by
  intro retries k tr s b hk h4a h4b htr
  constructor
  · intro hretry
    have htr0 : tr (0 + k) = .response s b := by
      rw [Nat.zero_add]; exact htr
    have hret0 : ∀ j, j < k → retryableMultipart (tr (0 + j)) = true := by
      intro j hj
      rw [Nat.zero_add]
      exact hretry j hj
    obtain ⟨extra, heq, hlen⟩ := forwardGo_hits_4xx tr s b h4a h4b k 0
      (retries + 1) ⟨0, false, "", 0⟩ 0 [] (by omega) htr0 hret0
    unfold Forwarder.forwardToN8nMultipart
    rw [heq]
    refine ⟨by rw [Nat.zero_add], by simp, by simp [hlen]⟩
  · intro stx table hretry hnoe
    have htr0 : tr (0 + k) = .response s b := by
      rw [Nat.zero_add]; exact htr
    have hret0 : ∀ j, j < k → retryableN8n (tr (0 + j)) = true := by
      intro j hj
      rw [Nat.zero_add]
      exact hretry j hj
    obtain ⟨extra, heq, hlen⟩ := forwardN8nGo_hits_4xx stx table retries tr
      s b h4a h4b hnoe k 0 (retries + 1) 0 none 0 [] (by omega) (by omega)
      htr0 hret0
    unfold N8n.forwardToN8n
    rw [heq]
    refine ⟨by rw [Nat.zero_add], by simp, by simp [hlen]⟩

/-- C4 witness: against a downstream that always answers 400 with an
ordinary body, both forwarders stop after exactly one attempt with no
backoff. -/
theorem forward_4xx_no_retry_witness :
    (Forwarder.forwardToN8nMultipart 2 C4tr400).result
      = ⟨400, false, "Invalid payload", 0⟩ ∧
    (Forwarder.forwardToN8nMultipart 2 C4tr400).attempts = 1 ∧
    (N8n.forwardToN8n C4stx [500, 1500] 2 C4tr400).attempts = 1 ∧
    (N8n.forwardToN8n C4stx [500, 1500] 2 C4tr400).delays.length = 0 := by
  have h := forward_4xx_no_retry_amended 2 0 C4tr400 400 "Invalid payload"
    (by omega) (by omega) (by omega) rfl
  have h1 := h.1 (fun j hj => absurd hj (Nat.not_lt_zero j))
  have h2 := h.2 C4stx [500, 1500] (fun j hj => absurd hj (Nat.not_lt_zero j))
    (by decide)
  exact ⟨h1.1, h1.2.1, h2.2.1, h2.2.2⟩
